import Mathlib

set_option maxRecDepth 100000

/-!
Verification of the vector annotation editor of the `file-types-convertor`
repository: the element data model, the geometric hit-tester, the renderer's
path trace, the snapshot history stack, the text/eraser tool transitions and
the export compositor, shallowly embedded from the TypeScript source
(`src/lib/types/drawing`, `src/lib/utils/drawingEngine.ts`,
`src/lib/utils/canvasExport`, the `ImageEditor` component).

Coordinates are modelled as rationals `ℚ` (the source computes with IEEE
doubles).  The source's square-root comparisons (`Math.sqrt s <= t` and
`Math.abs (Math.sqrt s - r) <= m`) are embedded by their squared equivalents
so that the hit-tester stays executable; bridging lemmas relate each embedded
comparison to the original `Real.sqrt` formula, for every input.
-/

namespace DrawingEditor

/-- `Point` from `src/lib/types/drawing`: `{ x: number; y: number }`. -/
structure Point where
  x : ℚ
  y : ℚ
deriving DecidableEq, Repr

/-- `DrawingElement` tagged union from `src/lib/types/drawing`.  Field order
follows the TypeScript type declarations; `id` is the UUID string assigned at
creation. -/
inductive DrawingElement where
  | path (id : String) (points : List Point) (color : String) (thickness : ℚ)
  | rectangle (id : String) (x y width height : ℚ) (color : String)
      (thickness : ℚ) (fill : Option String)
  | circle (id : String) (x y radius : ℚ) (color : String)
      (thickness : ℚ) (fill : Option String)
  | arrow (id : String) (startX startY endX endY : ℚ) (color : String)
      (thickness : ℚ)
  | text (id : String) (x y : ℚ) (text : String) (color : String)
      (fontSize : ℚ) (fontFamily : String)
deriving DecidableEq, Repr

/-- The common `id` field of every variant. -/
def DrawingElement.id : DrawingElement → String
  | .path i _ _ _ => i
  | .rectangle i _ _ _ _ _ _ _ => i
  | .circle i _ _ _ _ _ _ => i
  | .arrow i _ _ _ _ _ _ => i
  | .text i _ _ _ _ _ _ => i

/-- `const hitMargin = 10` in `isPointInElement`
(`drawingEngine.ts`): extra margin for easier selection. -/
def hitMargin : ℚ := 10

/-- `isPointNearLine` (`drawingEngine.ts` lines 243-284): distance from a
point to a line segment, compared against `threshold`.  The source computes
`param = dot / lenSq` when `lenSq !== 0` (else `-1`), clamps the projected
position to the segment, and tests `Math.sqrt (dx*dx + dy*dy) <= threshold`;
here the final test is embedded squared (see `isPointNearLine_iff_sqrt`). -/
def isPointNearLine (px py x1 y1 x2 y2 threshold : ℚ) : Bool :=
  let A := px - x1
  let B := py - y1
  let C := x2 - x1
  let D := y2 - y1
  let dot := A * C + B * D
  let lenSq := C * C + D * D
  let param : ℚ := if lenSq ≠ 0 then dot / lenSq else -1
  let xx := if param < 0 then x1 else if param > 1 then x2 else x1 + param * C
  let yy := if param < 0 then y1 else if param > 1 then y2 else y1 + param * D
  let dx := px - xx
  let dy := py - yy
  decide (0 ≤ threshold ∧ dx * dx + dy * dy ≤ threshold * threshold)

/-- The `case 'path'` loop of `isPointInElement`: test every
consecutive-point segment of the path with `isPointNearLine` at
`thickness + hitMargin`. -/
def pathSegHit (x y thickness : ℚ) : List Point → Bool
  | p1 :: p2 :: rest =>
      isPointNearLine x y p1.x p1.y p2.x p2.y (thickness + hitMargin)
        || pathSegHit x y thickness (p2 :: rest)
  | _ => false

/-- `isPointInElement` (`drawingEngine.ts` lines 185-238).  The circle case's
`Math.abs (distance - radius) <= thickness + hitMargin` (with
`distance = Math.sqrt dSq`) is embedded squared; `circle_hit_iff_ring` proves
it equivalent to the source's square-root form for every input. -/
def isPointInElement (x y : ℚ) (element : DrawingElement) : Bool :=
  match element with
  | .path _ points _ thickness => pathSegHit x y thickness points
  | .rectangle _ ex ey w h _ _ _ =>
      decide (x ≥ ex - hitMargin ∧ x ≤ ex + w + hitMargin ∧
              y ≥ ey - hitMargin ∧ y ≤ ey + h + hitMargin)
  | .circle _ cx cy radius _ thickness _ =>
      let dSq := (x - cx) ^ 2 + (y - cy) ^ 2
      let m := thickness + hitMargin
      decide ((0 ≤ radius + m ∧ dSq ≤ (radius + m) ^ 2) ∧
              (radius - m ≤ 0 ∨ (radius - m) ^ 2 ≤ dSq))
  | .arrow _ sx sy ex ey _ thickness =>
      isPointNearLine x y sx sy ex ey (thickness + hitMargin)
  | .text _ tx ty s _ fontSize _ =>
      let textWidth := (s.length : ℚ) * fontSize * (3 / 5)
      let textHeight := fontSize
      decide (x ≥ tx - hitMargin ∧ x ≤ tx + textWidth + hitMargin ∧
              y ≥ ty - hitMargin ∧ y ≤ ty + textHeight + hitMargin)

/-- The descending index loop of `getElementAtPoint`
(`for (let i = elements.length - 1; i >= 0; i--)`). -/
def getElementAtPointAux (x y : ℚ) (elements : List DrawingElement) :
    Nat → Option DrawingElement
  | 0 => none
  | i + 1 =>
      match elements[i]? with
      | some element =>
          if isPointInElement x y element then some element
          else getElementAtPointAux x y elements i
      | none => getElementAtPointAux x y elements i

/-- `getElementAtPoint` (`drawingEngine.ts` lines 165-180): topmost element
under the cursor, or `none`. -/
def getElementAtPoint (x y : ℚ) (elements : List DrawingElement) :
    Option DrawingElement :=
  getElementAtPointAux x y elements elements.length

/-- One path-drawing operation emitted by `renderPath` on the canvas
context: `moveTo`, `quadraticCurveTo` (control point then endpoint), or
`lineTo`. -/
inductive PathOp where
  | moveTo (x y : ℚ)
  | quadraticCurveTo (cpx cpy x y : ℚ)
  | lineTo (x y : ℚ)
deriving DecidableEq, Repr

/-- The `for (let i = 1; i < path.points.length - 1; i++)` loop of
`renderPath`, started on `points.tail`: each step consumes the current
point `p` (the control point) and peeks at the next point `q`, emitting a
quadratic curve ending at their midpoint. -/
def renderPathCurves : List Point → List PathOp
  | p :: q :: rest =>
      PathOp.quadraticCurveTo p.x p.y ((p.x + q.x) / 2) ((p.y + q.y) / 2)
        :: renderPathCurves (q :: rest)
  | _ => []

/-- `renderPath` (`drawingEngine.ts` lines 51-79), as the trace of
path-drawing operations it issues: nothing when fewer than 2 points,
otherwise `moveTo` the first point, the quadratic-curve loop, and a final
`lineTo` the last point. -/
def renderPath (points : List Point) : List PathOp :=
  if points.length < 2 then []
  else
    match points with
    | [] => []
    | p0 :: restPts =>
        PathOp.moveTo p0.x p0.y
          :: (renderPathCurves (p0 :: restPts).tail
              ++ [PathOp.lineTo (((p0 :: restPts).getLast (by simp)).x)
                    (((p0 :: restPts).getLast (by simp)).y)])

/-- A canvas, reduced to its pixel dimensions (`canvas.width`,
`canvas.height`); pixel contents are outside this geometric model
(`drawImage` of one canvas onto another never fails on a size mismatch). -/
structure Canvas where
  width : Nat
  height : Nat
deriving DecidableEq, Repr

/-- `mergeCanvasLayers` (`canvasExport`, validated variant, lines 157-190):
throws `Invalid canvas dimensions` when the base canvas has zero width or
height; otherwise draws both layers at the origin of a **base**-sized output
canvas inside a `try/catch` that rethrows any failure as
`Failed to merge canvas layers: <message>`.  Per the HTML canvas spec,
`drawImage` with a canvas source throws `InvalidStateError` exactly when
that source has zero width or height; the base was already checked nonzero,
so the first `drawImage` cannot throw and the second throws exactly when the
drawing layer has a zero dimension (the browser-dependent exception message
is modelled by the fixed string below).  The `!imageCanvas || !drawingCanvas`
null check cannot fire in this model (inputs always exist), and obtaining the
2d context of a fresh canvas succeeds.  No comparison between the two
inputs' dimensions occurs anywhere. -/
def mergeCanvasLayers (imageCanvas drawingCanvas : Canvas) :
    Except String Canvas :=
  if imageCanvas.width = 0 ∨ imageCanvas.height = 0 then
    Except.error "Invalid canvas dimensions"
  else if drawingCanvas.width = 0 ∨ drawingCanvas.height = 0 then
    Except.error "Failed to merge canvas layers: InvalidStateError"
  else
    Except.ok { width := imageCanvas.width, height := imageCanvas.height }

/-- A scene: the ordered list bound to `drawingElements`. -/
abbrev Scene := List DrawingElement

/-- The editor component's state (`ImageEditor` component): the live scene,
the history stack with its index, and the text-tool state.  `drawingCtx` is
modelled as always available (the editor aborts at mount otherwise), and the
`JSON.parse(JSON.stringify(...))` deep copies are the identity on these
immutable values. -/
structure EditorState where
  drawingElements : Scene
  history : List Scene
  historyIndex : Nat
  showTextInput : Bool
  textInputValue : String
  startPoint : Option Point
  currentColor : String
  currentThickness : ℚ
deriving DecidableEq, Repr

/-- The component's initial bindings: empty scene, `history = [[]]`,
`historyIndex = 0`, pen defaults. -/
def initialState : EditorState :=
  { drawingElements := []
    history := [[]]
    historyIndex := 0
    showTextInput := false
    textInputValue := ""
    startPoint := none
    currentColor := "#000000"
    currentThickness := 3 }

/-- `saveState` (`ImageEditor`, lines 287-300): truncate the redo tail
(`history.slice(0, historyIndex + 1)`), append a deep copy of the live
scene, advance the index; when the length exceeds 50 drop the oldest
snapshot (`history.slice(1)`) and decrement the index. -/
def saveState (st : EditorState) : EditorState :=
  let h := st.history.take (st.historyIndex + 1) ++ [st.drawingElements]
  let i := st.historyIndex + 1
  if h.length > 50 then
    { st with history := h.drop 1, historyIndex := i - 1 }
  else
    { st with history := h, historyIndex := i }

/-- `undo` (`ImageEditor`, lines 305-311): when `historyIndex > 0`,
decrement the index and replace the live scene with (a deep copy of) the
snapshot at the new index. -/
def undo (st : EditorState) : EditorState :=
  if st.historyIndex > 0 then
    { st with historyIndex := st.historyIndex - 1
              drawingElements := st.history.getD (st.historyIndex - 1) [] }
  else st

/-- `redo` (`ImageEditor`, lines 316-322): when
`historyIndex < history.length - 1`, increment the index and replace the
live scene with the snapshot at the new index. -/
def redo (st : EditorState) : EditorState :=
  if st.historyIndex + 1 < st.history.length then
    { st with historyIndex := st.historyIndex + 1
              drawingElements := st.history.getD (st.historyIndex + 1) [] }
  else st

/-- The commit step of `handlePointerUp` (lines 224-240): append the
completed element to `drawingElements`, then `saveState()`. -/
def commitElement (st : EditorState) (element : DrawingElement) : EditorState :=
  saveState { st with drawingElements := st.drawingElements ++ [element] }

/-- JavaScript's `String.prototype.trim()`: strip leading and trailing
whitespace.  (Defined by structural recursion on the character list so that
it evaluates; `String.trim` from the Lean library computes the same result
but is defined by well-founded recursion on byte positions.) -/
def trimString (s : String) : String :=
  ⟨((s.data.dropWhile Char.isWhitespace).reverse.dropWhile
      Char.isWhitespace).reverse⟩

/-- `handleTextSubmit` (`ImageEditor`, lines 259-282).  The early return
fires when the trimmed input is empty or no start point was captured (the
drawing context is always available here); otherwise a `Text` element is
created at the captured `startPoint` with `fontSize = thickness * 8`,
appended, and a snapshot pushed.  `newId` stands for the
`crypto.randomUUID()` value. -/
def handleTextSubmit (newId : String) (st : EditorState) : EditorState :=
  if trimString st.textInputValue = "" ∨ st.startPoint = none then
    { st with showTextInput := false }
  else
    match st.startPoint with
    | none => { st with showTextInput := false }
    | some p =>
        let textElement : DrawingElement :=
          .text newId p.x p.y st.textInputValue st.currentColor
            (st.currentThickness * 8) "Arial, sans-serif"
        let st' := commitElement st textElement
        { st' with showTextInput := false, textInputValue := "" }

/-- `handleEraser` (`ImageEditor`, lines 245-254): hit-test the live scene
at the pointer position; on a match, remove every element with the matched
element's id and push a snapshot; otherwise do nothing. -/
def handleEraser (point : Point) (st : EditorState) : EditorState :=
  match getElementAtPoint point.x point.y st.drawingElements with
  | some element =>
      saveState
        { st with
            drawingElements :=
              st.drawingElements.filter (fun e => e.id ≠ element.id) }
  | none => st

/-- `n` consecutive undo keystrokes. -/
def undoN (n : Nat) (st : EditorState) : EditorState := undo^[n] st

/-- `n` consecutive redo keystrokes. -/
def redoN (n : Nat) (st : EditorState) : EditorState := redo^[n] st

/-- Committing a whole list of elements in order, one stroke each. -/
def commitAll (st : EditorState) (elements : List DrawingElement) : EditorState :=
  elements.foldl commitElement st

/-! ## Shared lemmas about the hit-test scan -/

theorem getElementAtPointAux_eq_find? (x y : ℚ) (els : List DrawingElement) :
    ∀ n, n ≤ els.length →
      getElementAtPointAux x y els n
        = ((els.take n).reverse).find? (fun e => isPointInElement x y e) := by
  intro n
  induction n with
  | zero => intro _; simp [getElementAtPointAux]
  | succ i ih =>
      intro hn
      have hi : i < els.length := Nat.lt_of_succ_le hn
      have he : els[i]? = some els[i] := List.getElem?_eq_getElem hi
      rw [getElementAtPointAux, he, List.take_succ, he]
      simp only [Option.toList_some, List.reverse_append, List.reverse_cons,
        List.reverse_nil, List.nil_append, List.singleton_append]
      by_cases hp : isPointInElement x y els[i]
      · rw [if_pos hp, List.find?_cons_of_pos _ (by simpa using hp)]
      · rw [if_neg hp, List.find?_cons_of_neg _ (by simpa using hp)]
        exact ih (Nat.le_of_lt hi)

theorem getElementAtPoint_eq_find? (x y : ℚ) (els : List DrawingElement) :
    getElementAtPoint x y els
      = els.reverse.find? (fun e => isPointInElement x y e) := by
  rw [getElementAtPoint, getElementAtPointAux_eq_find? x y els els.length le_rfl,
    List.take_length]

theorem getElementAtPoint_some {x y : ℚ} {els : List DrawingElement}
    {e : DrawingElement} (h : getElementAtPoint x y els = some e) :
    isPointInElement x y e = true ∧ e ∈ els := by
  rw [getElementAtPoint_eq_find?] at h
  exact ⟨List.find?_some h, List.mem_reverse.mp (List.mem_of_find?_eq_some h)⟩

theorem getElementAtPoint_append_last (x y : ℚ) (s : List DrawingElement)
    (e : DrawingElement) :
    getElementAtPoint x y (s ++ [e])
      = if isPointInElement x y e then some e else getElementAtPoint x y s := by
  rw [getElementAtPoint_eq_find?, getElementAtPoint_eq_find?,
    List.reverse_append]
  simp only [List.reverse_cons, List.reverse_nil, List.nil_append,
    List.singleton_append]
  by_cases hp : isPointInElement x y e
  · rw [if_pos hp, List.find?_cons_of_pos _ (by simpa using hp)]
  · rw [if_neg hp, List.find?_cons_of_neg _ (by simpa using hp)]

/-! ## Bridging the squared comparisons back to the source's `Math.sqrt` -/

theorem sqrt_cast_le_iff (dx dy thr : ℚ) :
    Real.sqrt (((dx : ℝ)) ^ 2 + ((dy : ℝ)) ^ 2) ≤ (thr : ℝ)
      ↔ (0 ≤ thr ∧ dx * dx + dy * dy ≤ thr * thr) := by
  rw [Real.sqrt_le_iff,
    show ((dx : ℝ)) ^ 2 + ((dy : ℝ)) ^ 2 = ((dx * dx + dy * dy : ℚ) : ℝ) by
      push_cast; ring,
    show ((thr : ℝ)) ^ 2 = ((thr * thr : ℚ) : ℝ) by push_cast; ring]
  constructor
  · rintro ⟨h1, h2⟩
    exact ⟨by exact_mod_cast h1, by exact_mod_cast h2⟩
  · rintro ⟨h1, h2⟩
    exact ⟨by exact_mod_cast h1, by exact_mod_cast h2⟩

theorem le_sqrt_iff_cases (s r : ℝ) (hs : 0 ≤ s) :
    r ≤ Real.sqrt s ↔ (r ≤ 0 ∨ r ^ 2 ≤ s) := by
  rcases le_or_lt r 0 with h | h
  · constructor
    · intro _; exact Or.inl h
    · intro _; exact le_trans h (Real.sqrt_nonneg s)
  · rw [Real.le_sqrt (le_of_lt h) hs]
    constructor
    · intro h2; exact Or.inr h2
    · rintro (h2 | h2)
      · exact absurd h2 (not_le.mpr h)
      · exact h2

theorem abs_sqrt_sub_le_iff (s r m : ℝ) (hs : 0 ≤ s) :
    |Real.sqrt s - r| ≤ m
      ↔ ((0 ≤ r + m ∧ s ≤ (r + m) ^ 2) ∧ (r - m ≤ 0 ∨ (r - m) ^ 2 ≤ s)) := by
  rw [abs_sub_le_iff, sub_le_iff_le_add, sub_le_comm,
    Real.sqrt_le_iff, le_sqrt_iff_cases _ _ hs, add_comm m r]

/-- The point-to-segment distance comparison as the spec words it
(§4.2): project the point onto the infinite line through the two
endpoints, clamp the projection parameter to `[0,1]`, and compare the
Euclidean distance from the point to the clamped position against the
threshold.  For a degenerate segment the parameter is taken as `-1`
(matching the source); the clamped position is the endpoint either
way. -/
def pointToSegmentDistLE (px py x1 y1 x2 y2 thr : ℝ) : Prop :=
  let C := x2 - x1
  let D := y2 - y1
  let lenSq := C * C + D * D
  let param := if lenSq = 0 then (-1 : ℝ) else ((px - x1) * C + (py - y1) * D) / lenSq
  let t := max 0 (min 1 param)
  Real.sqrt ((px - (x1 + t * C)) ^ 2 + (py - (y1 + t * D)) ^ 2) ≤ thr

theorem isPointNearLine_iff_dist (px py x1 y1 x2 y2 thr : ℚ) :
    isPointNearLine px py x1 y1 x2 y2 thr = true
      ↔ pointToSegmentDistLE (px : ℝ) (py : ℝ) (x1 : ℝ) (y1 : ℝ) (x2 : ℝ) (y2 : ℝ) (thr : ℝ) := by
  have key : ∀ (a b : ℚ) (aR bR : ℝ), aR = (a : ℝ) → bR = (b : ℝ) →
      ((0 ≤ thr ∧ a * a + b * b ≤ thr * thr)
        ↔ Real.sqrt (aR ^ 2 + bR ^ 2) ≤ (thr : ℝ)) := by
    rintro a b _ _ rfl rfl
    exact (sqrt_cast_le_iff a b thr).symm
  simp only [isPointNearLine, pointToSegmentDistLE, decide_eq_true_eq]
  have hlen : ((x2 : ℝ) - x1) * ((x2 : ℝ) - x1) + ((y2 : ℝ) - y1) * ((y2 : ℝ) - y1)
      = (((x2 - x1) * (x2 - x1) + (y2 - y1) * (y2 - y1) : ℚ) : ℝ) := by push_cast; ring
  have hdot : ((px : ℝ) - x1) * ((x2 : ℝ) - x1) + ((py : ℝ) - y1) * ((y2 : ℝ) - y1)
      = (((px - x1) * (x2 - x1) + (py - y1) * (y2 - y1) : ℚ) : ℝ) := by push_cast; ring
  rw [hlen, hdot]
  by_cases h0 : (x2 - x1) * (x2 - x1) + (y2 - y1) * (y2 - y1) = (0 : ℚ)
  · simp only [if_neg (not_not_intro h0), if_pos ((Rat.cast_eq_zero (α := ℝ)).mpr h0),
      if_pos (show (-1 : ℚ) < 0 by norm_num),
      min_eq_right (show (-1 : ℝ) ≤ 1 by norm_num),
      max_eq_left (show (-1 : ℝ) ≤ 0 by norm_num)]
    exact key _ _ _ _ (by push_cast; ring) (by push_cast; ring)
  · simp only [if_pos h0, if_neg ((not_iff_not.mpr (Rat.cast_eq_zero (α := ℝ))).mpr h0),
      ← Rat.cast_div]
    set pq : ℚ := ((px - x1) * (x2 - x1) + (py - y1) * (y2 - y1))
        / ((x2 - x1) * (x2 - x1) + (y2 - y1) * (y2 - y1)) with hpq
    by_cases hp0 : pq < 0
    · simp only [if_pos hp0,
        min_eq_right (show (pq : ℝ) ≤ 1 by
          exact_mod_cast le_of_lt (lt_of_lt_of_le hp0 (by norm_num))),
        max_eq_left (show (pq : ℝ) ≤ 0 by exact_mod_cast le_of_lt hp0)]
      exact key _ _ _ _ (by push_cast; ring) (by push_cast; ring)
    · by_cases hp1 : pq > 1
      · simp only [if_neg hp0, if_pos hp1,
          min_eq_left (show (1 : ℝ) ≤ (pq : ℝ) by exact_mod_cast le_of_lt hp1),
          max_eq_right (show (0 : ℝ) ≤ 1 by norm_num)]
        exact key _ _ _ _ (by push_cast; ring) (by push_cast; ring)
      · simp only [if_neg hp0, if_neg hp1,
          min_eq_right (show (pq : ℝ) ≤ 1 by exact_mod_cast not_lt.mp hp1),
          max_eq_right (show (0 : ℝ) ≤ (pq : ℝ) by exact_mod_cast not_lt.mp hp0)]
        exact key _ _ _ _ (by push_cast; ring) (by push_cast; ring)

theorem circle_case_iff (cx cy radius t x y : ℚ) :
    (decide ((0 ≤ radius + (t + hitMargin) ∧
        (x - cx) ^ 2 + (y - cy) ^ 2 ≤ (radius + (t + hitMargin)) ^ 2) ∧
        (radius - (t + hitMargin) ≤ 0 ∨
        (radius - (t + hitMargin)) ^ 2 ≤ (x - cx) ^ 2 + (y - cy) ^ 2)) = true)
      ↔ |Real.sqrt (((x : ℝ) - cx) ^ 2 + ((y : ℝ) - cy) ^ 2) - radius|
          ≤ (t : ℝ) + 10 := by
  rw [decide_eq_true_eq, hitMargin,
    abs_sqrt_sub_le_iff _ _ _ (by positivity),
    show ((x : ℝ) - cx) ^ 2 + ((y : ℝ) - cy) ^ 2
        = (((x - cx) ^ 2 + (y - cy) ^ 2 : ℚ) : ℝ) by push_cast; ring]
  constructor
  · rintro ⟨⟨a1, a2⟩, a3⟩
    refine ⟨⟨by exact_mod_cast a1, by exact_mod_cast a2⟩, ?_⟩
    rcases a3 with a3 | a3
    · exact Or.inl (by exact_mod_cast a3)
    · exact Or.inr (by exact_mod_cast a3)
  · rintro ⟨⟨a1, a2⟩, a3⟩
    refine ⟨⟨by exact_mod_cast a1, by exact_mod_cast a2⟩, ?_⟩
    rcases a3 with a3 | a3
    · exact Or.inl (by exact_mod_cast a3)
    · exact Or.inr (by exact_mod_cast a3)

/-! ## Shared lemmas about the history stack -/

theorem getD_append_len {α : Type _} (l : List α) (a : α) (d : α) :
    (l ++ [a]).getD l.length d = a := by
  simp [List.getD_eq_getElem?_getD, List.getElem?_append_right (le_refl l.length)]

theorem getD_append_len' {α : Type _} (l : List α) (a : α) (d : α) (n : Nat)
    (h : n = l.length) : (l ++ [a]).getD n d = a := by
  subst h
  exact getD_append_len l a d

theorem saveState_drawingElements (st : EditorState) :
    (saveState st).drawingElements = st.drawingElements := by
  unfold saveState
  dsimp only
  split <;> rfl

theorem saveState_cases (st : EditorState) (h : st.historyIndex < st.history.length) :
    ((saveState st).historyIndex + 1 = (saveState st).history.length) ∧
    ((saveState st).history.getD (saveState st).historyIndex [] = st.drawingElements) ∧
    ((saveState st).history.length
        = if st.historyIndex + 2 > 50 then st.historyIndex + 1
          else st.historyIndex + 2) := by
  have htake : (st.history.take (st.historyIndex + 1)).length = st.historyIndex + 1 := by
    simp only [List.length_take]
    omega
  have hlen : (st.history.take (st.historyIndex + 1) ++ [st.drawingElements]).length
      = st.historyIndex + 2 := by
    simp [htake]
  unfold saveState
  dsimp only
  by_cases h50 :
      (st.history.take (st.historyIndex + 1) ++ [st.drawingElements]).length > 50
  · rw [if_pos h50]
    dsimp only
    have hdrop : (st.history.take (st.historyIndex + 1) ++ [st.drawingElements]).drop 1
        = (st.history.take (st.historyIndex + 1)).drop 1 ++ [st.drawingElements] :=
      List.drop_append_of_le_length (by omega)
    have hdlen : ((st.history.take (st.historyIndex + 1)).drop 1).length
        = st.historyIndex := by
      simp [htake]
    refine ⟨?_, ?_, ?_⟩
    · simp only [List.length_drop, hlen]
      omega
    · rw [hdrop]
      exact getD_append_len' _ _ _ _ (by omega)
    · rw [if_pos (by omega : st.historyIndex + 2 > 50)]
      simp only [List.length_drop, hlen]
      omega
  · rw [if_neg h50]
    dsimp only
    refine ⟨?_, ?_, ?_⟩
    · simp only [hlen]
    · exact getD_append_len' _ _ _ _ (by omega)
    · rw [if_neg (by omega : ¬ st.historyIndex + 2 > 50), hlen]

theorem saveState_getLast? (st : EditorState) :
    (saveState st).history.getLast? = some st.drawingElements := by
  unfold saveState
  dsimp only
  by_cases h50 :
      (st.history.take (st.historyIndex + 1) ++ [st.drawingElements]).length > 50
  · rw [if_pos h50]
    dsimp only
    rw [List.drop_append_of_le_length
      (show 1 ≤ (st.history.take (st.historyIndex + 1)).length by
        rw [List.length_append] at h50
        simp only [List.length_cons, List.length_nil] at h50
        omega)]
    exact List.getLast?_concat _
  · rw [if_neg h50]
    exact List.getLast?_concat _

theorem saveState_length_pos (st : EditorState) :
    0 < (saveState st).history.length := by
  unfold saveState
  dsimp only
  split
  · simp only [List.length_drop]
    omega
  · simp

theorem undo_history (st : EditorState) : (undo st).history = st.history := by
  unfold undo
  split <;> rfl

theorem undo_historyIndex (st : EditorState) :
    (undo st).historyIndex = st.historyIndex - 1 := by
  unfold undo
  split
  · rfl
  · omega

theorem undo_inv (st : EditorState)
    (h1 : st.historyIndex < st.history.length)
    (h2 : st.history.getD st.historyIndex [] = st.drawingElements) :
    (undo st).historyIndex < (undo st).history.length ∧
    (undo st).history.getD (undo st).historyIndex [] = (undo st).drawingElements := by
  unfold undo
  split
  · exact ⟨by show st.historyIndex - 1 < st.history.length; omega, rfl⟩
  · exact ⟨h1, h2⟩

theorem redo_history (st : EditorState) : (redo st).history = st.history := by
  unfold redo
  split <;> rfl

theorem redo_historyIndex (st : EditorState)
    (h1 : st.historyIndex < st.history.length) :
    (redo st).historyIndex = min (st.historyIndex + 1) (st.history.length - 1) := by
  unfold redo
  split
  · show st.historyIndex + 1 = _
    omega
  · omega

theorem redo_inv (st : EditorState)
    (h1 : st.historyIndex < st.history.length)
    (h2 : st.history.getD st.historyIndex [] = st.drawingElements) :
    (redo st).historyIndex < (redo st).history.length ∧
    (redo st).history.getD (redo st).historyIndex [] = (redo st).drawingElements := by
  unfold redo
  split
  · exact ⟨by show st.historyIndex + 1 < st.history.length; assumption, rfl⟩
  · exact ⟨h1, h2⟩

theorem undoN_spec (n : Nat) (st : EditorState)
    (h1 : st.historyIndex < st.history.length)
    (h2 : st.history.getD st.historyIndex [] = st.drawingElements) :
    (undoN n st).history = st.history ∧
    (undoN n st).historyIndex = st.historyIndex - n ∧
    (undoN n st).historyIndex < (undoN n st).history.length ∧
    (undoN n st).history.getD (undoN n st).historyIndex []
      = (undoN n st).drawingElements := by
  induction n with
  | zero => exact ⟨rfl, by simp [undoN], h1, h2⟩
  | succ k ih =>
      obtain ⟨ihh, ihi, ihinv1, ihinv2⟩ := ih
      have hstep : undoN (k + 1) st = undo (undoN k st) := by
        unfold undoN
        exact Function.iterate_succ_apply' undo k st
      refine ⟨?_, ?_, ?_, ?_⟩
      · rw [hstep, undo_history, ihh]
      · rw [hstep, undo_historyIndex, ihi]
        omega
      · rw [hstep]
        exact (undo_inv _ ihinv1 ihinv2).1
      · rw [hstep]
        exact (undo_inv _ ihinv1 ihinv2).2

theorem redoN_spec (n : Nat) (st : EditorState)
    (h1 : st.historyIndex < st.history.length)
    (h2 : st.history.getD st.historyIndex [] = st.drawingElements) :
    (redoN n st).history = st.history ∧
    (redoN n st).historyIndex = min (st.historyIndex + n) (st.history.length - 1) ∧
    (redoN n st).historyIndex < (redoN n st).history.length ∧
    (redoN n st).history.getD (redoN n st).historyIndex []
      = (redoN n st).drawingElements := by
  induction n with
  | zero => exact ⟨rfl, by simp [redoN]; omega, h1, h2⟩
  | succ k ih =>
      obtain ⟨ihh, ihi, ihinv1, ihinv2⟩ := ih
      have hstep : redoN (k + 1) st = redo (redoN k st) := by
        unfold redoN
        exact Function.iterate_succ_apply' redo k st
      refine ⟨?_, ?_, ?_, ?_⟩
      · rw [hstep, redo_history, ihh]
      · rw [hstep, redo_historyIndex _ ihinv1, ihi, ihh]
        omega
      · rw [hstep]
        exact (redo_inv _ ihinv1 ihinv2).1
      · rw [hstep]
        exact (redo_inv _ ihinv1 ihinv2).2

theorem commitElement_spec (st : EditorState) (e : DrawingElement)
    (h : st.historyIndex < st.history.length) :
    (commitElement st e).drawingElements = st.drawingElements ++ [e] ∧
    (commitElement st e).historyIndex + 1 = (commitElement st e).history.length ∧
    (commitElement st e).history.getD (commitElement st e).historyIndex []
      = st.drawingElements ++ [e] := by
  unfold commitElement
  have h' := saveState_cases { st with drawingElements := st.drawingElements ++ [e] } h
  exact ⟨saveState_drawingElements _, h'.1, h'.2.1⟩

theorem commitAll_spec (es : List DrawingElement) (st : EditorState)
    (h1 : st.historyIndex + 1 = st.history.length)
    (h2 : st.history.getD st.historyIndex [] = st.drawingElements) :
    (commitAll st es).drawingElements = st.drawingElements ++ es ∧
    (commitAll st es).historyIndex + 1 = (commitAll st es).history.length ∧
    (commitAll st es).history.getD (commitAll st es).historyIndex []
      = (commitAll st es).drawingElements := by
  induction es generalizing st with
  | nil => exact ⟨by simp [commitAll], h1, h2⟩
  | cons e es ih =>
      have hstep : commitAll st (e :: es) = commitAll (commitElement st e) es := rfl
      obtain ⟨c1, c2, c3⟩ := commitElement_spec st e (by omega)
      obtain ⟨i1, i2, i3⟩ := ih (commitElement st e) c2 (c3.trans c1.symm)
      rw [hstep]
      refine ⟨?_, i2, i3⟩
      rw [i1, c1, List.append_assoc, List.singleton_append]

theorem commitAll_length (es : List DrawingElement) (st : EditorState)
    (h1 : st.historyIndex + 1 = st.history.length)
    (hcap : st.history.length ≤ 50) :
    (commitAll st es).history.length = min (st.history.length + es.length) 50 := by
  induction es generalizing st with
  | nil =>
      simp [commitAll]
      omega
  | cons e es ih =>
      have hstep : commitAll st (e :: es) = commitAll (commitElement st e) es := rfl
      have hidx : st.historyIndex < st.history.length := by omega
      obtain ⟨c2, _, c4⟩ :=
        saveState_cases { st with drawingElements := st.drawingElements ++ [e] } hidx
      have hproj : ({ st with drawingElements := st.drawingElements ++ [e] }
          : EditorState).historyIndex = st.historyIndex := rfl
      have hlen1 : (commitElement st e).history.length = min (st.history.length + 1) 50 := by
        unfold commitElement
        rw [c4, hproj]
        split <;> omega
      have hcap1 : (commitElement st e).history.length ≤ 50 := by omega
      rw [hstep, ih (commitElement st e) c2 hcap1, hlen1]
      simp only [List.length_cons]
      omega

/-! ## Shared lemmas about the renderer's path trace -/

theorem renderPathCurves_eq_map (l : List Point) :
    renderPathCurves l = (List.range (l.length - 1)).map (fun i =>
      PathOp.quadraticCurveTo (l.getD i ⟨0, 0⟩).x (l.getD i ⟨0, 0⟩).y
        (((l.getD i ⟨0, 0⟩).x + (l.getD (i + 1) ⟨0, 0⟩).x) / 2)
        (((l.getD i ⟨0, 0⟩).y + (l.getD (i + 1) ⟨0, 0⟩).y) / 2)) := by
  induction l with
  | nil => simp [renderPathCurves]
  | cons p rest ih =>
      cases rest with
      | nil => simp [renderPathCurves]
      | cons q rest' =>
          rw [renderPathCurves, ih]
          simp only [List.length_cons, Nat.add_sub_cancel,
            List.range_succ_eq_map, List.map_cons, List.map_map,
            List.getD_cons_zero, List.getD_cons_succ]
          refine congrArg₂ List.cons rfl ?_
          apply List.map_congr_left
          intro i _
          simp [List.getD_cons_succ]

theorem getLast_eq_getD (l : List Point) (h : l ≠ []) :
    l.getLast h = l.getD (l.length - 1) ⟨0, 0⟩ := by
  rw [List.getLast_eq_getElem, List.getD_eq_getElem?_getD,
    List.getElem?_eq_getElem (by
      cases l with
      | nil => exact absurd rfl h
      | cons a l => simp)]
  rfl

/-! ## Claims -/

/-- C1, counterexample: merging a 100×100 base with a 50×50 vector layer does
**not** raise an `ExportFailure`; `mergeCanvasLayers` succeeds and returns a
100×100 canvas, because it never compares the two inputs' dimensions. -/
theorem merge_mismatched_dims_counterexample :
    mergeCanvasLayers ⟨100, 100⟩ ⟨50, 50⟩ = Except.ok ⟨100, 100⟩ := rfl

/-- C1, amended: `mergeCanvasLayers` never compares the two inputs'
dimensions, so a mere mismatch raises nothing: whenever both canvases have
nonzero width and height — however different — the merge succeeds and
returns a canvas sized like the base.  Its only errors are a missing
canvas/context, a zero-sized base (`Invalid canvas dimensions`), and a
zero-sized drawing layer (`drawImage`'s `InvalidStateError`, rethrown as
`Failed to merge canvas layers: …`). -/
theorem merge_no_dimension_check :
    (∀ base layer : Canvas, base.width ≠ 0 → base.height ≠ 0 →
        layer.width ≠ 0 → layer.height ≠ 0 →
        mergeCanvasLayers base layer = Except.ok ⟨base.width, base.height⟩) ∧
    (∀ base layer : Canvas, base.width = 0 ∨ base.height = 0 →
        mergeCanvasLayers base layer
          = Except.error "Invalid canvas dimensions") ∧
    (∀ base layer : Canvas, base.width ≠ 0 → base.height ≠ 0 →
        layer.width = 0 ∨ layer.height = 0 →
        mergeCanvasLayers base layer
          = Except.error "Failed to merge canvas layers: InvalidStateError") := by
  refine ⟨?_, ?_, ?_⟩
  · intro base layer hw hh hlw hlh
    unfold mergeCanvasLayers
    rw [if_neg (by tauto), if_neg (by tauto)]
  · intro base layer hz
    unfold mergeCanvasLayers
    rw [if_pos hz]
  · intro base layer hw hh hz
    unfold mergeCanvasLayers
    rw [if_neg (by tauto), if_pos hz]

/-- Witness for `merge_no_dimension_check`: the claim's own 100×100 base
with a 50×50 layer merges successfully despite the mismatch; a 0×0 base
errors with the dimension message; a 100×100 base with a 0×0 layer errors
through the rethrown `drawImage` failure. -/
theorem merge_no_dimension_check_witness :
    ((100 : Nat) ≠ 0 ∧ (50 : Nat) ≠ 0 ∧
      mergeCanvasLayers ⟨100, 100⟩ ⟨50, 50⟩ = Except.ok ⟨100, 100⟩) ∧
    mergeCanvasLayers ⟨0, 0⟩ ⟨50, 50⟩
      = Except.error "Invalid canvas dimensions" ∧
    mergeCanvasLayers ⟨100, 100⟩ ⟨0, 0⟩
      = Except.error "Failed to merge canvas layers: InvalidStateError" :=
  ⟨⟨by decide, by decide,
      merge_no_dimension_check.1 ⟨100, 100⟩ ⟨50, 50⟩
        (by decide) (by decide) (by decide) (by decide)⟩,
    merge_no_dimension_check.2.1 ⟨0, 0⟩ ⟨50, 50⟩ (Or.inl rfl),
    merge_no_dimension_check.2.2 ⟨100, 100⟩ ⟨0, 0⟩
      (by decide) (by decide) (Or.inl rfl)⟩

/-- C2, counterexample: the rectangle committed as x=100, y=100, width=−50,
height=−50 spans the geometric square (50,50)–(100,100), and (75,75) is
strictly inside it (margin aside), yet the unnormalized containment test
fails and the hit-tester returns `none` instead of the rectangle. -/
theorem rectangle_negative_extent_counterexample :
    isPointInElement 75 75
      (.rectangle "r1" 100 100 (-50) (-50) "#000000" 3 none) = false ∧
    getElementAtPoint 75 75
      [.rectangle "r1" 100 100 (-50) (-50) "#000000" 3 none] = none ∧
    ((100 : ℚ) + (-50) - 10 < 75 ∧ (75 : ℚ) < 100 + 10 ∧
     (100 : ℚ) + (-50) - 10 < 75 ∧ (75 : ℚ) < 100 + 10) := by
  have h : isPointInElement 75 75
      (DrawingElement.rectangle "r1" 100 100 (-50) (-50) "#000000" 3 none)
        = false := by
    simp only [isPointInElement, hitMargin, decide_eq_false_iff_not]
    intro hcon
    obtain ⟨-, h2, -, -⟩ := hcon
    norm_num at h2
  refine ⟨h, ?_, by norm_num⟩
  rw [getElementAtPoint_eq_find?]
  simp [List.find?, h]

/-- C2, amended: for a committed rectangle with **nonnegative** width and
height that the scan reaches first (here: the topmost, last element of the
scene), every point strictly inside the rectangle's bounding box expanded by
the 10-unit hit margin is returned by the hit-tester as that rectangle.
(For negative extents the hit region is the unnormalized interval
`[x−10, x+width+10] × [y−10, y+height+10]`, which can be empty.) -/
theorem rectangle_interior_hit (s : List DrawingElement) (idv : String)
    (ex ey w h : ℚ) (col : String) (t : ℚ) (fl : Option String) (x y : ℚ)
    (hw : 0 ≤ w) (hh : 0 ≤ h)
    (hx1 : ex - 10 < x) (hx2 : x < ex + w + 10)
    (hy1 : ey - 10 < y) (hy2 : y < ey + h + 10) :
    getElementAtPoint x y (s ++ [.rectangle idv ex ey w h col t fl])
      = some (.rectangle idv ex ey w h col t fl) := by
  rw [getElementAtPoint_append_last]
  have hhit : isPointInElement x y (.rectangle idv ex ey w h col t fl) = true := by
    simp only [isPointInElement, hitMargin, decide_eq_true_eq]
    exact ⟨by linarith, by linarith, by linarith, by linarith⟩
  rw [if_pos hhit]

/-- Witness for `rectangle_interior_hit`: the point (60,60) inside the
committed rectangle (50,50)+100×70 on a one-element scene. -/
theorem rectangle_interior_hit_witness :
    (0 : ℚ) ≤ 100 ∧ (50 : ℚ) - 10 < 60 ∧
    getElementAtPoint 60 60
        ([] ++ [DrawingElement.rectangle "r" 50 50 100 70 "#000000" 3 none])
      = some (.rectangle "r" 50 50 100 70 "#000000" 3 none) :=
  ⟨by norm_num, by norm_num,
    rectangle_interior_hit [] "r" 50 50 100 70 "#000000" 3 none 60 60
      (by norm_num) (by norm_num) (by norm_num) (by norm_num)
      (by norm_num) (by norm_num)⟩

/-- C7: the hit-tester scans the scene in reverse order and returns the
first (topmost, last-drawn) element whose geometric test matches — i.e. it
computes `find?` on the reversed scene — and returns `none` as a normal
outcome when nothing matches, in particular on the empty scene. -/
theorem hitTest_topmost_first :
    (∀ (x y : ℚ) (els : List DrawingElement),
        getElementAtPoint x y els
          = els.reverse.find? (fun e => isPointInElement x y e)) ∧
    (∀ x y : ℚ, getElementAtPoint x y [] = none) :=
  ⟨fun x y els => getElementAtPoint_eq_find? x y els, fun _ _ => rfl⟩

/-- C5: the circle hit test is a ring test — a point hits a circle element
iff the absolute difference between its Euclidean distance to the center and
the radius is at most `thickness + 10`; in particular, for the circle at
(0,0) with radius 20 and thickness 2, the center (distance 0) is not a hit
while a point at distance 20 is. -/
theorem circle_hit_ring_test :
    (∀ (i : String) (cx cy radius : ℚ) (col : String) (t : ℚ)
        (fl : Option String) (x y : ℚ),
      isPointInElement x y (.circle i cx cy radius col t fl) = true ↔
        |Real.sqrt (((x : ℝ) - cx) ^ 2 + ((y : ℝ) - cy) ^ 2) - radius|
          ≤ (t : ℝ) + 10) ∧
    isPointInElement 0 0 (.circle "c" 0 0 20 "#000000" 2 none) = false ∧
    isPointInElement 20 0 (.circle "c" 0 0 20 "#000000" 2 none) = true := by
  refine ⟨?_, ?_, ?_⟩
  · intro i cx cy radius col t fl x y
    have h := circle_case_iff cx cy radius t x y
    simpa only [isPointInElement] using h
  · simp [isPointInElement, hitMargin]
    norm_num
  · simp [isPointInElement, hitMargin]
    norm_num

/-- C6: the arrow hit test compares the point-to-segment distance — the
projection onto the infinite line through start→end, clamped to `[0,1]`,
then the Euclidean distance to the clamped position — against
`thickness + 10`; in particular, for the arrow (0,0)→(100,0) with thickness
3, the point (50,5) is a hit and (50,20) is not. -/
theorem arrow_hit_segment_distance :
    (∀ (i : String) (sx sy ex ey : ℚ) (col : String) (t : ℚ) (x y : ℚ),
      isPointInElement x y (.arrow i sx sy ex ey col t) = true ↔
        pointToSegmentDistLE (x : ℝ) (y : ℝ) (sx : ℝ) (sy : ℝ) (ex : ℝ) (ey : ℝ)
          ((t : ℝ) + 10)) ∧
    isPointInElement 50 5 (.arrow "a" 0 0 100 0 "#000000" 3) = true ∧
    isPointInElement 50 20 (.arrow "a" 0 0 100 0 "#000000" 3) = false := by
  refine ⟨?_, ?_, ?_⟩
  · intro i sx sy ex ey col t x y
    have h := isPointNearLine_iff_dist x y sx sy ex ey (t + hitMargin)
    rw [show ((t + hitMargin : ℚ) : ℝ) = (t : ℝ) + 10 by
      rw [hitMargin]; push_cast; ring] at h
    simpa only [isPointInElement] using h
  · simp [isPointInElement, isPointNearLine, hitMargin]
    norm_num
  · simp [isPointInElement, isPointNearLine, hitMargin]
    norm_num

/-- C8: rendering a path with fewer than 2 points draws nothing (and raises
no error — `renderPath` is total); with n ≥ 2 points the trace is: move to
point₀, then for each interior point i = 1..n−2 a quadratic curve whose
control point is pointᵢ and whose endpoint is the midpoint of pointᵢ and
pointᵢ₊₁, finished by a straight segment to the last point. -/
theorem renderPath_smoothing :
    (∀ pts : List Point, pts.length < 2 → renderPath pts = []) ∧
    (∀ pts : List Point, 2 ≤ pts.length →
      renderPath pts
        = PathOp.moveTo (pts.getD 0 ⟨0, 0⟩).x (pts.getD 0 ⟨0, 0⟩).y
            :: ((List.range (pts.length - 2)).map (fun i =>
                  PathOp.quadraticCurveTo (pts.getD (i + 1) ⟨0, 0⟩).x
                    (pts.getD (i + 1) ⟨0, 0⟩).y
                    (((pts.getD (i + 1) ⟨0, 0⟩).x + (pts.getD (i + 2) ⟨0, 0⟩).x) / 2)
                    (((pts.getD (i + 1) ⟨0, 0⟩).y + (pts.getD (i + 2) ⟨0, 0⟩).y) / 2))
              ++ [PathOp.lineTo (pts.getD (pts.length - 1) ⟨0, 0⟩).x
                    (pts.getD (pts.length - 1) ⟨0, 0⟩).y])) := by
  constructor
  · intro pts h
    rw [renderPath.eq_def, if_pos h]
  · intro pts h
    match pts, h with
    | p0 :: rest, h =>
      rw [renderPath.eq_def,
        if_neg (by simp only [List.length_cons] at h ⊢; omega)]
      dsimp only
      rw [getLast_eq_getD, renderPathCurves_eq_map]
      simp only [List.tail_cons, List.length_cons, Nat.add_sub_cancel,
        List.getD_cons_zero, List.getD_cons_succ]
      rw [show rest.length + 1 - 2 = rest.length - 1 by omega]

/-- Witness for `renderPath_smoothing`: a 1-point path renders nothing; a
3-point path yields move, one quadratic curve to the midpoint, and the
closing segment. -/
theorem renderPath_smoothing_witness :
    (([⟨5, 5⟩] : List Point).length < 2 ∧ renderPath [⟨5, 5⟩] = []) ∧
    (2 ≤ ([⟨0, 0⟩, ⟨10, 0⟩, ⟨10, 10⟩] : List Point).length ∧
      renderPath [⟨0, 0⟩, ⟨10, 0⟩, ⟨10, 10⟩]
        = [PathOp.moveTo 0 0, PathOp.quadraticCurveTo 10 0 10 5,
           PathOp.lineTo 10 10]) := by
  refine ⟨⟨by decide, renderPath_smoothing.1 [⟨5, 5⟩] (by decide)⟩,
    ⟨by decide, ?_⟩⟩
  have h := renderPath_smoothing.2 [⟨0, 0⟩, ⟨10, 0⟩, ⟨10, 10⟩] (by decide)
  rw [h]
  norm_num [List.range_succ]

/-- C3: from a fresh history, committing N ≤ 50 elements, undoing N times
and redoing N times leaves the live scene exactly the scene after the N
commits; in particular, after committing a rectangle and then a circle, one
undo leaves only the rectangle and one redo restores both. -/
theorem commit_undo_redo_roundtrip (es : List DrawingElement)
    (hN : es.length ≤ 50) :
    (redoN es.length (undoN es.length (commitAll initialState es))).drawingElements
      = (commitAll initialState es).drawingElements ∧
    (undo (commitElement (commitElement initialState
        (.rectangle "r1" 50 50 100 70 "#000000" 3 none))
        (.circle "c1" 200 200 30 "#000000" 3 none))).drawingElements
      = [.rectangle "r1" 50 50 100 70 "#000000" 3 none] ∧
    (redo (undo (commitElement (commitElement initialState
        (.rectangle "r1" 50 50 100 70 "#000000" 3 none))
        (.circle "c1" 200 200 30 "#000000" 3 none)))).drawingElements
      = [.rectangle "r1" 50 50 100 70 "#000000" 3 none,
         .circle "c1" 200 200 30 "#000000" 3 none] := by
  refine ⟨?_, by decide, by decide⟩
  obtain ⟨c1, c2, c3⟩ := commitAll_spec es initialState rfl rfl
  have hInv1 : (commitAll initialState es).historyIndex
      < (commitAll initialState es).history.length := by omega
  obtain ⟨u1, u2, u3, u4⟩ :=
    undoN_spec es.length (commitAll initialState es) hInv1 c3
  obtain ⟨r1, r2, r3, r4⟩ :=
    redoN_spec es.length (undoN es.length (commitAll initialState es)) u3 u4
  have hidx : (redoN es.length (undoN es.length
      (commitAll initialState es))).historyIndex
        = (commitAll initialState es).historyIndex := by
    rw [r2, u2, u1]
    omega
  have hhist : (redoN es.length (undoN es.length
      (commitAll initialState es))).history
        = (commitAll initialState es).history := by
    rw [r1, u1]
  calc (redoN es.length (undoN es.length
          (commitAll initialState es))).drawingElements
      = (redoN es.length (undoN es.length (commitAll initialState es))).history.getD
          (redoN es.length (undoN es.length
            (commitAll initialState es))).historyIndex [] := r4.symm
    _ = (commitAll initialState es).history.getD
          (commitAll initialState es).historyIndex [] := by rw [hhist, hidx]
    _ = (commitAll initialState es).drawingElements := c3

/-- Witness for `commit_undo_redo_roundtrip` at N = 2 (the rectangle/circle
scenario itself). -/
theorem commit_undo_redo_roundtrip_witness :
    ([DrawingElement.rectangle "r1" 50 50 100 70 "#000000" 3 none,
      .circle "c1" 200 200 30 "#000000" 3 none] : List DrawingElement).length ≤ 50 ∧
    (redoN ([DrawingElement.rectangle "r1" 50 50 100 70 "#000000" 3 none,
        .circle "c1" 200 200 30 "#000000" 3 none] : List DrawingElement).length
      (undoN ([DrawingElement.rectangle "r1" 50 50 100 70 "#000000" 3 none,
          .circle "c1" 200 200 30 "#000000" 3 none] : List DrawingElement).length
        (commitAll initialState
          [DrawingElement.rectangle "r1" 50 50 100 70 "#000000" 3 none,
           .circle "c1" 200 200 30 "#000000" 3 none]))).drawingElements
      = (commitAll initialState
          [DrawingElement.rectangle "r1" 50 50 100 70 "#000000" 3 none,
           .circle "c1" 200 200 30 "#000000" 3 none]).drawingElements :=
  ⟨by decide,
    (commit_undo_redo_roundtrip
      [DrawingElement.rectangle "r1" 50 50 100 70 "#000000" 3 none,
       .circle "c1" 200 200 30 "#000000" 3 none] (by decide)).1⟩

/-- C4: the history stack keeps `index < length` (and `length > 0`) across
push, undo and redo; a push appends the current scene at the top, advances
the index, and — when the capacity of 50 would be exceeded — evicts the
oldest snapshot and decrements the index, so the length after N pushes from
fresh is `min (N+1) 50`; pushing 51 snapshots leaves exactly 50 with the
oldest (initial empty) snapshot gone. -/
theorem history_invariant_and_capacity :
    (∀ st : EditorState, st.historyIndex < st.history.length →
        (saveState st).historyIndex < (saveState st).history.length) ∧
    (∀ st : EditorState, st.historyIndex < st.history.length →
        (undo st).historyIndex < (undo st).history.length) ∧
    (∀ st : EditorState, st.historyIndex < st.history.length →
        (redo st).historyIndex < (redo st).history.length) ∧
    (∀ st : EditorState, 0 < (saveState st).history.length) ∧
    (∀ st : EditorState, (saveState st).history.getLast? = some st.drawingElements) ∧
    (∀ st : EditorState, st.historyIndex < st.history.length →
        st.historyIndex + 2 ≤ 50 →
        (saveState st).historyIndex = st.historyIndex + 1) ∧
    (∀ st : EditorState, st.historyIndex < st.history.length →
        50 < st.historyIndex + 2 →
        (saveState st).historyIndex = st.historyIndex ∧
        (saveState st).history.length = st.historyIndex + 1) ∧
    (∀ st : EditorState, st.historyIndex < st.history.length →
        st.history.length ≤ 50 → (saveState st).history.length ≤ 50) ∧
    (∀ es : List DrawingElement,
        (commitAll initialState es).history.length = min (es.length + 1) 50) ∧
    (commitAll initialState
        (List.replicate 51 (.path "p" [] "#000000" 1))).history.length = 50 ∧
    [] ∉ (commitAll initialState
        (List.replicate 51 (.path "p" [] "#000000" 1))).history := by
  refine ⟨?_, ?_, ?_, fun st => saveState_length_pos st,
    fun st => saveState_getLast? st, ?_, ?_, ?_, ?_, by decide, by decide⟩
  · intro st h
    have := (saveState_cases st h).1
    omega
  · intro st h
    rw [undo_history, undo_historyIndex]
    omega
  · intro st h
    rw [redo_history, redo_historyIndex st h]
    omega
  · intro st h hc
    obtain ⟨s1, -, s3⟩ := saveState_cases st h
    rw [if_neg (by omega)] at s3
    omega
  · intro st h hc
    obtain ⟨s1, -, s3⟩ := saveState_cases st h
    rw [if_pos (by omega)] at s3
    omega
  · intro st h hcap
    obtain ⟨-, -, s3⟩ := saveState_cases st h
    rw [s3]
    split <;> omega
  · intro es
    have := commitAll_length es initialState rfl
      (by rw [show initialState.history.length = 1 from rfl]; omega)
    simpa [Nat.add_comm] using this

/-- Witness for `history_invariant_and_capacity` at the fresh editor
state. -/
theorem history_invariant_and_capacity_witness :
    initialState.historyIndex < initialState.history.length ∧
    (saveState initialState).historyIndex < (saveState initialState).history.length ∧
    (undo initialState).historyIndex < (undo initialState).history.length ∧
    (redo initialState).historyIndex < (redo initialState).history.length ∧
    (saveState initialState).historyIndex = initialState.historyIndex + 1 ∧
    (saveState initialState).history.length ≤ 50 := by
  obtain ⟨a1, a2, a3, a4, a5, a6, a7, a8, a9, a10, a11⟩ :=
    history_invariant_and_capacity
  have h : initialState.historyIndex < initialState.history.length := by decide
  exact ⟨h, a1 _ h, a2 _ h, a3 _ h, a6 _ h (by decide), a8 _ h (by decide)⟩

/-- C9: submitting non-empty text appends exactly one `Text` element at the
captured click position (with `fontSize = thickness * 8`) and pushes one
snapshot on top of the history (index at the new top, length grown by one up
to the capacity); empty or whitespace-only text leaves the scene and the
history untouched and only hides the input — returning to Idle in both
cases. -/
theorem handleTextSubmit_commit (newId : String) (st : EditorState) (p : Point)
    (hInv : st.historyIndex < st.history.length)
    (hCap : st.history.length ≤ 50) :
    (trimString st.textInputValue ≠ "" → st.startPoint = some p →
      (handleTextSubmit newId st).drawingElements
        = st.drawingElements
            ++ [.text newId p.x p.y st.textInputValue st.currentColor
                  (st.currentThickness * 8) "Arial, sans-serif"] ∧
      (handleTextSubmit newId st).history.getLast?
        = some ((handleTextSubmit newId st).drawingElements) ∧
      (handleTextSubmit newId st).history.length = min (st.historyIndex + 2) 50 ∧
      (handleTextSubmit newId st).showTextInput = false) ∧
    (trimString st.textInputValue = "" →
      handleTextSubmit newId st = { st with showTextInput := false }) := by
  constructor
  · intro hne hsp
    unfold handleTextSubmit
    rw [if_neg (by simp [hne, hsp])]
    rw [hsp]
    have hmain := commitElement_spec st
      (.text newId p.x p.y st.textInputValue st.currentColor
        (st.currentThickness * 8) "Arial, sans-serif") hInv
    have hlast := saveState_getLast?
      { st with drawingElements := st.drawingElements
          ++ [.text newId p.x p.y st.textInputValue st.currentColor
                (st.currentThickness * 8) "Arial, sans-serif"] }
    have hlen := (saveState_cases
      { st with drawingElements := st.drawingElements
          ++ [.text newId p.x p.y st.textInputValue st.currentColor
                (st.currentThickness * 8) "Arial, sans-serif"] } hInv).2.2
    refine ⟨hmain.1, ?_, ?_, rfl⟩
    · show (commitElement st _).history.getLast?
        = some ((commitElement st _).drawingElements)
      rw [hmain.1]
      exact hlast
    · show (commitElement st _).history.length = _
      unfold commitElement
      have hproj : ({ st with drawingElements := st.drawingElements
          ++ [.text newId p.x p.y st.textInputValue st.currentColor
                (st.currentThickness * 8) "Arial, sans-serif"] }
            : EditorState).historyIndex = st.historyIndex := rfl
      rw [hlen, hproj]
      split <;> omega
  · intro he
    unfold handleTextSubmit
    rw [if_pos (Or.inl he)]

/-- Witness for `handleTextSubmit_commit`: submitting "hi" at the captured
point (5,7) on a fresh editor appends one text element and hides the input;
submitting "   " (whitespace only) changes nothing but the input
visibility. -/
theorem handleTextSubmit_commit_witness :
    (trimString "hi" ≠ "" ∧
      (handleTextSubmit "t1"
        { drawingElements := [], history := [[]], historyIndex := 0,
          showTextInput := true, textInputValue := "hi",
          startPoint := some ⟨5, 7⟩, currentColor := "#000000",
          currentThickness := 3 }).drawingElements
        = [] ++ [DrawingElement.text "t1" 5 7 "hi" "#000000" (3 * 8)
            "Arial, sans-serif"] ∧
      (handleTextSubmit "t1"
        { drawingElements := [], history := [[]], historyIndex := 0,
          showTextInput := true, textInputValue := "hi",
          startPoint := some ⟨5, 7⟩, currentColor := "#000000",
          currentThickness := 3 }).showTextInput = false) ∧
    (trimString "   " = "" ∧
      handleTextSubmit "t2"
        { drawingElements := [], history := [[]], historyIndex := 0,
          showTextInput := true, textInputValue := "   ",
          startPoint := some ⟨5, 7⟩, currentColor := "#000000",
          currentThickness := 3 }
        = { drawingElements := [], history := [[]], historyIndex := 0,
            showTextInput := false, textInputValue := "   ",
            startPoint := some ⟨5, 7⟩, currentColor := "#000000",
            currentThickness := 3 }) := by
  constructor
  · have h := (handleTextSubmit_commit "t1"
      { drawingElements := [], history := [[]], historyIndex := 0,
        showTextInput := true, textInputValue := "hi",
        startPoint := some ⟨5, 7⟩, currentColor := "#000000",
        currentThickness := 3 } ⟨5, 7⟩ (by decide) (by decide)).1
      (by decide) rfl
    exact ⟨by decide, h.1, h.2.2.2⟩
  · have h := (handleTextSubmit_commit "t2"
      { drawingElements := [], history := [[]], historyIndex := 0,
        showTextInput := true, textInputValue := "   ",
        startPoint := some ⟨5, 7⟩, currentColor := "#000000",
        currentThickness := 3 } ⟨5, 7⟩ (by decide) (by decide)).2
      (by decide)
    exact ⟨by decide, h⟩

/-- C10: a committed path with fewer than 2 points (as a pen tap produces: a
1-point path) never passes its geometric test, is never the hit-tester's
result for any query point and any scene, and therefore survives every
eraser click (assuming no other element shares its id). -/
theorem shortPath_never_hit (idv : String) (pts : List Point) (col : String)
    (t : ℚ) (hlen : pts.length < 2) :
    (∀ x y : ℚ, isPointInElement x y (.path idv pts col t) = false) ∧
    (∀ (x y : ℚ) (els : List DrawingElement),
        getElementAtPoint x y els ≠ some (.path idv pts col t)) ∧
    (∀ (q : Point) (st : EditorState),
        DrawingElement.path idv pts col t ∈ st.drawingElements →
        (∀ e ∈ st.drawingElements, e.id = idv → e = .path idv pts col t) →
        DrawingElement.path idv pts col t ∈ (handleEraser q st).drawingElements) := by
  have hfalse : ∀ x y : ℚ, isPointInElement x y (.path idv pts col t) = false := by
    intro x y
    simp only [isPointInElement]
    match pts, hlen with
    | [], _ => rfl
    | [p], _ => rfl
  have hnot : ∀ (x y : ℚ) (els : List DrawingElement),
      getElementAtPoint x y els ≠ some (.path idv pts col t) := by
    intro x y els hc
    have h1 := (getElementAtPoint_some hc).1
    rw [hfalse x y] at h1
    exact Bool.false_ne_true h1
  refine ⟨hfalse, hnot, ?_⟩
  intro q st hmem huniq
  unfold handleEraser
  cases hget : getElementAtPoint q.x q.y st.drawingElements with
  | none => exact hmem
  | some e =>
      rw [saveState_drawingElements]
      show DrawingElement.path idv pts col t ∈ List.filter _ st.drawingElements
      rw [List.mem_filter]
      refine ⟨hmem, ?_⟩
      have hne : e ≠ .path idv pts col t := fun hcon =>
        hnot q.x q.y st.drawingElements (hcon ▸ hget)
      have hemem : e ∈ st.drawingElements := (getElementAtPoint_some hget).2
      have hid : ¬ (e.id = idv) := fun hcon => hne (huniq e hemem hcon)
      simp only [DrawingElement.id, decide_eq_true_eq]
      exact fun hcon => hid hcon.symm

/-- Witness for `shortPath_never_hit`: a 1-point path in a scene with a
rectangle; it is not hit at (60,60) (inside the rectangle), and erasing at
(60,60) removes only the rectangle, leaving the path in the scene. -/
theorem shortPath_never_hit_witness :
    (([⟨1, 1⟩] : List Point).length < 2) ∧
    isPointInElement 60 60 (.path "p1" [⟨1, 1⟩] "#000000" 3) = false ∧
    getElementAtPoint 60 60
        [DrawingElement.path "p1" [⟨1, 1⟩] "#000000" 3,
         .rectangle "r" 50 50 100 70 "#000000" 3 none]
      ≠ some (.path "p1" [⟨1, 1⟩] "#000000" 3) ∧
    DrawingElement.path "p1" [⟨1, 1⟩] "#000000" 3 ∈
      (handleEraser ⟨60, 60⟩
        { initialState with drawingElements :=
            [DrawingElement.path "p1" [⟨1, 1⟩] "#000000" 3,
             .rectangle "r" 50 50 100 70 "#000000" 3 none] }).drawingElements := by
  have h := shortPath_never_hit "p1" [⟨1, 1⟩] "#000000" 3 (by decide)
  exact ⟨by decide, h.1 60 60, h.2.1 60 60 _,
    h.2.2 ⟨60, 60⟩ _ (by decide) (by decide)⟩

end DrawingEditor
